import Mathlib

/-!
Shallow embedding of `common/lib/xmodule/xmodule/partitions/partitions.py`:
the `Group` and `UserPartition` value objects, their versioned JSON
(de)serialization, and the scheme registry lookup `UserPartition.get_scheme`.

Python values crossing the JSON-like boundary are modelled by `PyVal`
(integers, strings, None, lists, string-keyed dicts).  Python floats,
booleans and non-string dict keys do not occur in this module's data and are
not modelled.  Exceptions (`TypeError`, `ValueError`) are modelled by the
single error type `PyError` carrying the formatted message, matching the
spec's single "type/validation error" kind; fallible operations return
`Except PyError _`.  The process-wide scheme cache `UserPartition._SCHEMES`
is threaded explicitly as a `SchemeState`; the external stevedore
`ExtensionManager` contents are a `List Extension` parameter.
-/

set_option maxHeartbeats 1000000

namespace Partitions

/-- A JSON-like Python value as used at this module's boundary. -/
inductive PyVal where
  | int (n : Int)
  | str (s : String)
  | noneV
  | list (xs : List PyVal)
  | dict (entries : List (String × PyVal))

/-- A raised Python exception, carrying its formatted message.  The module
raises `TypeError` everywhere it raises explicitly; `int()` coercion can also
raise `ValueError`.  The spec treats these as a single error kind. -/
structure PyError where
  msg : String
deriving DecidableEq

/-- Python type name of a `PyVal`, as it appears in error messages. -/
def typeName : PyVal → String
  | .int _ => "int"
  | .str _ => "str"
  | .noneV => "NoneType"
  | .list _ => "list"
  | .dict _ => "dict"

mutual

/-- Python `repr` of a `PyVal` (as used by `"{0}".format(value)` on dicts). -/
def pyRepr : PyVal → String
  | .int n => toString n
  | .str s => "\x27" ++ s ++ "\x27"
  | .noneV => "None"
  | .list xs => "[" ++ pyReprList xs ++ "]"
  | .dict d => "\x7b" ++ pyReprDict d ++ "\x7d"

/-- Comma-separated `repr`s of list elements. -/
def pyReprList : List PyVal → String
  | [] => ""
  | [x] => pyRepr x
  | x :: y :: xs => pyRepr x ++ ", " ++ pyReprList (y :: xs)

/-- Comma-separated `repr`s of dict entries. -/
def pyReprDict : List (String × PyVal) → String
  | [] => ""
  | [(k, v)] => "\x27" ++ k ++ "\x27: " ++ pyRepr v
  | (k, v) :: e :: es => "\x27" ++ k ++ "\x27: " ++ pyRepr v ++ ", " ++ pyReprDict (e :: es)

end

/-- Python `str` of a `PyVal` (as used by `"{0}".format(name)` on a scheme
name): strings render without quotes at the top level. -/
def pyStr : PyVal → String
  | .str s => s
  | v => pyRepr v

/-- Python truthiness of a `PyVal` (`bool(v)`). -/
def pyTruthy : PyVal → Bool
  | .int n => n != 0
  | .str s => !s.isEmpty
  | .noneV => false
  | .list xs => !xs.isEmpty
  | .dict d => !d.isEmpty

/-- Python `v == n` for an integer literal `n`: true exactly on the equal
integer (unequal types compare unequal without raising). -/
def pyEqInt (v : PyVal) (n : Int) : Bool :=
  match v with
  | .int m => m == n
  | _ => false

/-- Dict lookup `d[k]` as an `Option` (first binding wins; a Python dict has
unique keys, so serialized dicts never carry duplicates). -/
def dGet (d : List (String × PyVal)) (k : String) : Option PyVal :=
  (d.find? (fun kv => kv.1 == k)).map (fun kv => kv.2)

/-- Dict lookup defaulted to `None`; only used where the key was already
checked present. -/
def dGetD (d : List (String × PyVal)) (k : String) : PyVal :=
  (dGet d k).getD .noneV

/-- Python `k in d`. -/
def hasKey (d : List (String × PyVal)) (k : String) : Bool :=
  (dGet d k).isSome

/-- The first key of `ks` missing from `d`, mirroring the
`for key in (...): if key not in value: raise` loops. -/
def firstMissing (d : List (String × PyVal)) : List String → Option String
  | [] => Option.none
  | k :: ks => if hasKey d k then firstMissing d ks else some k

/-- Leading decimal digits accumulated into a `Nat`; `Option.none` on any
non-digit. -/
def decDigitsAux : List Char → Nat → Option Nat
  | [], acc => some acc
  | c :: cs, acc =>
    if c.isDigit then decDigitsAux cs (acc * 10 + (c.toNat - 48))
    else Option.none

/-- A non-empty all-digit character list as a `Nat`. -/
def decDigits : List Char → Option Nat
  | [] => Option.none
  | cs => decDigitsAux cs 0

/-- Whitespace stripped from the front of a character list. -/
def dropLeadingSpace : List Char → List Char
  | [] => []
  | c :: cs => if c.isWhitespace then dropLeadingSpace cs else c :: cs

/-- Whitespace stripped from both ends (`s.strip()` as `int()` performs). -/
def stripSpaces (cs : List Char) : List Char :=
  (dropLeadingSpace (dropLeadingSpace cs).reverse).reverse

/-- Python `int(s)` on a string: optional surrounding whitespace, optional
sign, decimal digits. -/
def parsePyInt (s : String) : Option Int :=
  match stripSpaces s.data with
  | [] => Option.none
  | c :: cs =>
    if c == '-' then (decDigits cs).map (fun n => -(n : Int))
    else if c == '+' then (decDigits cs).map (fun n => (n : Int))
    else (decDigits (c :: cs)).map (fun n => (n : Int))

/-- Python `int(v)`: identity on integers, decimal parse on strings
(`ValueError` on a bad literal), `TypeError` on other types.  Python floats
(truncating) are outside the model. -/
def intCoerce : PyVal → Except PyError Int
  | .int n => .ok n
  | .str s =>
    match parsePyInt s with
    | some n => .ok n
    | Option.none =>
      .error ⟨"invalid literal for int() with base 10: \x27" ++ s ++ "\x27"⟩
  | v => .error ⟨"int() argument must be a string or a number, not \x27" ++ typeName v ++ "\x27"⟩

/-- `Group`: a `namedtuple("Group", "id name")` whose `id` was coerced by
`int(id)` at construction.  The `name` field is stored as given (the source
does not constrain its type). -/
structure Group where
  id : Int
  name : PyVal

/-- `Group.VERSION` (source line 19). -/
def Group.VERSION : Int := 1

/-- `Group.__new__`: coerces `id` with `int(id)` (propagating the coercion
error) and stores `name` as given. -/
def Group.new (id : PyVal) (name : PyVal) : Except PyError Group :=
  (intCoerce id).map (fun n => ⟨n, name⟩)

/-- `Group.to_json`: the dict `{id, name, version}`. -/
def Group.to_json (g : Group) : PyVal :=
  .dict [("id", .int g.id), ("name", g.name), ("version", .int Group.VERSION)]

/-- Input to `Group.from_json`: either an actual `Group` instance (the
`isinstance(value, Group)` pass-through) or a JSON-like value. -/
inductive GroupJson where
  | inst (g : Group)
  | val (v : PyVal)

/-- `Group.from_json`.  A non-dict argument raises in Python at the first
`key not in value` test; the Python corner where a *string* argument is
probed by substring containment is not modelled (no claim touches it). -/
def Group.from_json : GroupJson → Except PyError Group
  | .inst g => .ok g
  | .val v =>
    match v with
    | .dict d =>
      match firstMissing d ["id", "name", "version"] with
      | some k =>
        .error ⟨"Group dict " ++ pyRepr v ++ " missing value key \x27" ++ k ++ "\x27"⟩
      | Option.none =>
        if pyEqInt (dGetD d "version") Group.VERSION then
          Group.new (dGetD d "id") (dGetD d "name")
        else
          .error ⟨"Group dict " ++ pyRepr v ++ " has unexpected version"⟩
    | _ => .error ⟨"argument of type \x27" ++ typeName v ++ "\x27 is not iterable"⟩

/-- Shared helper: serializing then deserializing a `Group` restores it. -/
theorem group_to_from_aux (g : Group) : Group.from_json (.val g.to_json) = .ok g := by
  rfl

/-- A stevedore extension registered under the
`openedx.user_partition_scheme` namespace; identified by its name. -/
structure Extension where
  name : String

/-- A user partition scheme instance.  `UserPartitionScheme.__init__` stores
the extension it was built from; concrete schemes are instances of that class
(which defines neither `__bool__` nor `__len__`, so instances are always
truthy in Python). -/
structure Scheme where
  extension : Option Extension

/-- The `name` property: `self.extension.name if self.extension else None`. -/
def Scheme.name (s : Scheme) : Option String :=
  s.extension.map Extension.name

/-- Python truthiness of a scheme instance: always true, since
`UserPartitionScheme` defines neither `__bool__` nor `__len__`. -/
def Scheme.truthy (_ : Scheme) : Bool := true

/-- `extension.plugin(extension=extension)` (source line 134): instantiates
the scheme class holding the extension, so its `name` property is the
extension's name. -/
def Extension.plugin (e : Extension) : Scheme :=
  ⟨some e⟩

/-- The mutable class attribute `UserPartition._SCHEMES`: the process-wide
scheme cache, keyed by the name passed to `get_scheme`.  The lazily created
`_SCHEME_EXTENSIONS` handle is not modelled separately: the registry contents
are the immutable `List Extension` parameter. -/
structure SchemeState where
  schemes : List (PyVal × Scheme)

/-- Equality of cache keys.  Only hashable values can reach the cache; in
practice only strings are ever cached (resolution succeeds only for
registered string names), so atomic equality suffices. -/
def pyKeyEq : PyVal → PyVal → Bool
  | .int a, .int b => a == b
  | .str a, .str b => a == b
  | .noneV, .noneV => true
  | _, _ => false

/-- `UserPartition._SCHEMES.get(name, None)`. -/
def cacheLookup (st : SchemeState) (name : PyVal) : Option Scheme :=
  (st.schemes.find? (fun kv => pyKeyEq kv.1 name)).map (fun kv => kv.2)

/-- `UserPartition._SCHEME_EXTENSIONS[name]` as an `Option`: the registered
extension with that name, if any.  Extensions are keyed by string names, so a
non-string name never resolves. -/
def lookupExt (reg : List Extension) (name : PyVal) : Option Extension :=
  match name with
  | .str s => reg.find? (fun e => e.name == s)
  | _ => Option.none

/-- The cache-miss path of `get_scheme` (source lines 128-135): look the name
up in the extension registry (`KeyError` becomes
`TypeError("Unrecognized scheme {0}".format(name))`), instantiate the plugin,
and cache it.  The cached key is absent at this point (a cache hit returns
earlier and falsy schemes do not exist), so appending is dict assignment. -/
def resolveScheme (reg : List Extension) (st : SchemeState) (name : PyVal) :
    Except PyError (Scheme × SchemeState) :=
  match lookupExt reg name with
  | Option.none => .error ⟨"Unrecognized scheme " ++ pyStr name⟩
  | some ext =>
    let s := ext.plugin
    .ok (s, ⟨st.schemes ++ [(name, s)]⟩)

/-- `UserPartition.get_scheme`: return the cached scheme when present (the
source re-resolves a falsy cached value; scheme instances are always truthy),
else resolve through the registry and cache the result. -/
def UserPartition.get_scheme (reg : List Extension) (st : SchemeState) (name : PyVal) :
    Except PyError (Scheme × SchemeState) :=
  match cacheLookup st name with
  | some s => if Scheme.truthy s then .ok (s, st) else resolveScheme reg st name
  | Option.none => resolveScheme reg st name

/-- The `scheme` slot of a `UserPartition`.  Python's constructor stores any
truthy argument as given, so the slot holds either an actual scheme instance
or an arbitrary (non-scheme) object. -/
inductive SchemeSlot where
  | scheme (s : Scheme)
  | raw (v : PyVal)

/-- Python truthiness of whatever was passed as the `scheme` argument. -/
def SchemeSlot.truthy : SchemeSlot → Bool
  | .scheme s => Scheme.truthy s
  | .raw v => pyTruthy v

/-- `self.scheme.name` as a JSON value; a non-scheme slot has no `name`
attribute and raises. -/
def SchemeSlot.nameAttr : SchemeSlot → Except PyError PyVal
  | .scheme s =>
    match Scheme.name s with
    | some n => .ok (.str n)
    | Option.none => .ok .noneV
  | .raw v =>
    .error ⟨"\x27" ++ typeName v ++ "\x27 object has no attribute \x27name\x27"⟩

/-- `UserPartition`: a
`namedtuple("UserPartition", "id name description groups scheme")` whose `id`
was coerced by `int(id)` at construction. -/
structure UserPartition where
  id : Int
  name : PyVal
  description : PyVal
  groups : List Group
  scheme : SchemeSlot

/-- `UserPartition.VERSION` (source line 104). -/
def UserPartition.VERSION : Int := 2

/-- `UserPartition.VERSION_1_SCHEME` (source line 113). -/
def UserPartition.VERSION_1_SCHEME : String := "random"

/-- `UserPartition.__new__`: a falsy `scheme` argument (the default `None`,
but equally any falsy object) is replaced by resolving `scheme_id` through
`get_scheme`; then `int(id)` is coerced.  That order matches the source: a
scheme-resolution error wins over a coercion error. -/
def UserPartition.new (reg : List Extension) (st : SchemeState)
    (id : PyVal) (name : PyVal) (description : PyVal) (groups : List Group)
    (schemeArg : SchemeSlot) (scheme_id : PyVal) :
    Except PyError (UserPartition × SchemeState) := do
  let (slot, st') ←
    if SchemeSlot.truthy schemeArg then pure (schemeArg, st)
    else do
      let (s, st') ← UserPartition.get_scheme reg st scheme_id
      pure (SchemeSlot.scheme s, st')
  let n ← intCoerce id
  pure (⟨n, name, description, groups, slot⟩, st')

/-- `UserPartition.to_json`: the dict
`{id, name, scheme: scheme.name, description, groups, version}` in source
order; fails only if the stored scheme slot has no `name` attribute. -/
def UserPartition.to_json (p : UserPartition) : Except PyError PyVal := do
  let sn ← p.scheme.nameAttr
  pure (.dict
    [("id", .int p.id), ("name", p.name), ("scheme", sn),
     ("description", p.description),
     ("groups", .list (p.groups.map Group.to_json)),
     ("version", .int UserPartition.VERSION)])

/-- One step of the comprehension `[Group.from_json(g) for g in ...]`:
deserialize each entry in order, propagating the first error. -/
def decodeGroupList : List PyVal → Except PyError (List Group)
  | [] => .ok []
  | g :: gs => do
    let g2 ← Group.from_json (.val g)
    let gs2 ← decodeGroupList gs
    pure (g2 :: gs2)

/-- Deserialize `value["groups"]`: must be a list (Python would also iterate
strings and dicts; those corners are not modelled). -/
def decodeGroups : PyVal → Except PyError (List Group)
  | .list xs => decodeGroupList xs
  | v => .error ⟨"\x27" ++ typeName v ++ "\x27 object is not iterable"⟩

/-- Source lines 182-193 of `UserPartition.from_json`, entered after the key
and version checks with the dispatched `scheme_id`: decode the groups, resolve
the scheme, apply the (dead) truthiness guard, and construct the partition.
`dGetD` defaults are never hit: all five keys were checked present. -/
def fromJsonTail (reg : List Extension) (st : SchemeState)
    (d : List (String × PyVal)) (scheme_id : PyVal) :
    Except PyError (UserPartition × SchemeState) := do
  let groups ← decodeGroups (dGetD d "groups")
  let (scheme, st') ← UserPartition.get_scheme reg st scheme_id
  if Scheme.truthy scheme then
    UserPartition.new reg st' (dGetD d "id") (dGetD d "name") (dGetD d "description")
      groups (SchemeSlot.scheme scheme) (.str UserPartition.VERSION_1_SCHEME)
  else
    .error ⟨"UserPartition dict " ++ pyRepr (.dict d) ++ " has unrecognized scheme " ++
      pyStr scheme_id⟩

/-- Input to `UserPartition.from_json`: an actual instance (the
`isinstance(value, UserPartition)` pass-through) or a JSON-like value. -/
inductive PartitionJson where
  | inst (p : UserPartition)
  | val (v : PyVal)

/-- `UserPartition.from_json`: pass instances through, check the five
required keys in order, dispatch on `version` (1 uses the fixed default
scheme id; 2 requires a `scheme` key; anything else is an unexpected
version), then run the shared tail. -/
def UserPartition.from_json (reg : List Extension) (st : SchemeState) :
    PartitionJson → Except PyError (UserPartition × SchemeState)
  | .inst p => .ok (p, st)
  | .val v =>
    match v with
    | .dict d =>
      match firstMissing d ["id", "name", "description", "version", "groups"] with
      | some k =>
        .error ⟨"UserPartition dict " ++ pyRepr v ++ " missing value key \x27" ++ k ++ "\x27"⟩
      | Option.none =>
        if pyEqInt (dGetD d "version") 1 then
          fromJsonTail reg st d (.str UserPartition.VERSION_1_SCHEME)
        else if pyEqInt (dGetD d "version") UserPartition.VERSION then
          if hasKey d "scheme" then
            fromJsonTail reg st d (dGetD d "scheme")
          else
            .error ⟨"UserPartition dict " ++ pyRepr v ++ " missing value key \x27scheme\x27"⟩
        else
          .error ⟨"UserPartition dict " ++ pyRepr v ++ " has unexpected version"⟩
    | _ => .error ⟨"argument of type \x27" ++ typeName v ++ "\x27 is not iterable"⟩

/-- `fromJsonTail` with the `if not scheme: raise ...("has unrecognized
scheme")` guard removed: the comparison point for showing the guard dead. -/
def fromJsonTailNoGuard (reg : List Extension) (st : SchemeState)
    (d : List (String × PyVal)) (scheme_id : PyVal) :
    Except PyError (UserPartition × SchemeState) := do
  let groups ← decodeGroups (dGetD d "groups")
  let (scheme, st') ← UserPartition.get_scheme reg st scheme_id
  UserPartition.new reg st' (dGetD d "id") (dGetD d "name") (dGetD d "description")
    groups (SchemeSlot.scheme scheme) (.str UserPartition.VERSION_1_SCHEME)

/-- `UserPartition.from_json` with the unrecognized-scheme guard removed,
identical otherwise. -/
def UserPartition.from_jsonNoGuard (reg : List Extension) (st : SchemeState) :
    PartitionJson → Except PyError (UserPartition × SchemeState)
  | .inst p => .ok (p, st)
  | .val v =>
    match v with
    | .dict d =>
      match firstMissing d ["id", "name", "description", "version", "groups"] with
      | some k =>
        .error ⟨"UserPartition dict " ++ pyRepr v ++ " missing value key \x27" ++ k ++ "\x27"⟩
      | Option.none =>
        if pyEqInt (dGetD d "version") 1 then
          fromJsonTailNoGuard reg st d (.str UserPartition.VERSION_1_SCHEME)
        else if pyEqInt (dGetD d "version") UserPartition.VERSION then
          if hasKey d "scheme" then
            fromJsonTailNoGuard reg st d (dGetD d "scheme")
          else
            .error ⟨"UserPartition dict " ++ pyRepr v ++ " missing value key \x27scheme\x27"⟩
        else
          .error ⟨"UserPartition dict " ++ pyRepr v ++ " has unexpected version"⟩
    | _ => .error ⟨"argument of type \x27" ++ typeName v ++ "\x27 is not iterable"⟩

/-- The loop body of `UserPartition.get_group`: first group whose `id`
compares Python-equal to `group_id`. -/
def findGroup (gid : PyVal) : List Group → Option Group
  | [] => Option.none
  | g :: gs => if pyEqInt gid g.id then some g else findGroup gid gs

/-- `UserPartition.get_group`: linear scan of `self.groups` in order,
`None` when no id matches.  The receiver is a namedtuple and is not
modified (the model is pure). -/
def UserPartition.get_group (p : UserPartition) (gid : PyVal) : Option Group :=
  findGroup gid p.groups

/-- Shared helper: a list of serialized groups deserializes to the original
list, in order. -/
theorem decode_groups_aux (gs : List Group) :
    decodeGroups (.list (gs.map Group.to_json)) = .ok gs := by
  induction gs with
  | nil => rfl
  | cons g gs ih =>
    simp only [List.map_cons, decodeGroups, decodeGroupList, group_to_from_aux,
      decodeGroups.eq_def] at *
    rw [ih]
    rfl

/-- Shared helper: a true `pyEqInt` comparison pins the value down to the
integer. -/
theorem pyEqInt_eq_int (v : PyVal) (n : Int) (h : pyEqInt v n = true) : v = .int n := by
  cases v with
  | int m => simp only [pyEqInt, beq_iff_eq] at h; rw [h]
  | str s => simp [pyEqInt] at h
  | noneV => simp [pyEqInt] at h
  | list xs => simp [pyEqInt] at h
  | dict d => simp [pyEqInt] at h

/-- Shared helper: when some required key is missing, the key-check loop
stops at a missing key of the list. -/
theorem firstMissing_of_missing (d : List (String × PyVal)) (ks : List String)
    (k : String) (hk : k ∈ ks) (h : hasKey d k = false) :
    ∃ k2, firstMissing d ks = some k2 ∧ k2 ∈ ks ∧ hasKey d k2 = false := by
  induction ks with
  | nil => cases hk
  | cons a ks ih =>
    by_cases ha : hasKey d a = true
    · have hak : k ≠ a := by
        intro he
        rw [he, ha] at h
        cases h
      have hk2 : k ∈ ks := by
        cases hk with
        | head => exact absurd rfl hak
        | tail _ h2 => exact h2
      obtain ⟨k2, h1, h2, h3⟩ := ih hk2
      exact ⟨k2, by simp [firstMissing, ha, h1], List.mem_cons_of_mem a h2, h3⟩
    · have ha2 : hasKey d a = false := by
        cases hha : hasKey d a
        · rfl
        · exact absurd hha ha
      exact ⟨a, by simp [firstMissing, ha2], List.mem_cons_self a ks, ha2⟩

/-- C3: for every Group `g`, `Group.from_json(g.to_json())` returns a Group
equal to `g` (same id and name). -/
theorem group_from_json_to_json_roundtrip (g : Group) :
    Group.from_json (.val g.to_json) = .ok g :=
  group_to_from_aux g

/-- Shared helper: characterization of the `get_group` scan over a list. -/
theorem findGroup_spec (gid : PyVal) (l : List Group) :
    (∀ g, findGroup gid l = some g →
      ∃ pre post, l = pre ++ g :: post ∧ pyEqInt gid g.id = true ∧
        ∀ g2, g2 ∈ pre → pyEqInt gid g2.id = false) ∧
    (findGroup gid l = Option.none → ∀ g, g ∈ l → pyEqInt gid g.id = false) := by
  induction l with
  | nil =>
    constructor
    · intro g h
      cases h
    · intro _ g hg
      cases hg
  | cons a l ih =>
    by_cases ha : pyEqInt gid a.id = true
    · constructor
      · intro g h
        rw [findGroup, if_pos ha] at h
        cases h
        exact ⟨[], l, rfl, ha, by intro g2 hg2; cases hg2⟩
      · intro h
        rw [findGroup, if_pos ha] at h
        cases h
    · have ha2 : pyEqInt gid a.id = false := by
        cases hha : pyEqInt gid a.id
        · rfl
        · exact absurd hha ha
      constructor
      · intro g h
        rw [findGroup, if_neg ha] at h
        obtain ⟨pre, post, h1, h2, h3⟩ := ih.1 g h
        refine ⟨a :: pre, post, by rw [h1]; rfl, h2, ?_⟩
        intro g2 hg2
        cases hg2 with
        | head => exact ha2
        | tail _ h4 => exact h3 g2 h4
      · intro h g hg
        rw [findGroup, if_neg ha] at h
        cases hg with
        | head => exact ha2
        | tail _ h4 => exact ih.2 h g h4

/-- C8: `p.get_group(group_id)` returns the first Group of `p.groups` (in
list order) whose `id` is Python-equal to `group_id`, and `None` when no
group matches; `p` itself is a pure value and is unchanged. -/
theorem userPartition_get_group_first_match (p : UserPartition) (gid : PyVal) :
    (∀ g, p.get_group gid = some g →
      ∃ pre post, p.groups = pre ++ g :: post ∧ pyEqInt gid g.id = true ∧
        ∀ g2, g2 ∈ pre → pyEqInt gid g2.id = false) ∧
    (p.get_group gid = Option.none → ∀ g, g ∈ p.groups → pyEqInt gid g.id = false) :=
  findGroup_spec gid p.groups

/-- C8 witness: on a partition with groups `[Group(1,"A"), Group(2,"B")]`,
`get_group(2)` finds `Group(2,"B")` at position 1. -/
theorem userPartition_get_group_first_match_witness :
    ∃ pre post,
      (UserPartition.mk 7 (.str "P") (.str "d")
        [⟨1, .str "A"⟩, ⟨2, .str "B"⟩] (.raw .noneV)).groups = pre ++ ⟨2, .str "B"⟩ :: post ∧
      pyEqInt (.int 2) (Group.mk 2 (.str "B")).id = true ∧
      ∀ g2, g2 ∈ pre → pyEqInt (.int 2) g2.id = false :=
  (userPartition_get_group_first_match
    (UserPartition.mk 7 (.str "P") (.str "d")
      [⟨1, .str "A"⟩, ⟨2, .str "B"⟩] (.raw .noneV)) (.int 2)).1 ⟨2, .str "B"⟩ rfl

/-- C7: constructing a Group or a UserPartition propagates the `int(id)`
coercion error when `id` is not representable as an integer, and otherwise
stores exactly the integer coercion as `id`.  A truthy (actual scheme)
argument is passed to the UserPartition constructor so that scheme resolution
does not intervene. -/
theorem construction_coerces_id (reg : List Extension) (st : SchemeState)
    (id name description : PyVal) (groups : List Group) (s : Scheme) (scheme_id : PyVal) :
    (∀ e, intCoerce id = .error e →
      Group.new id name = .error e ∧
      UserPartition.new reg st id name description groups (SchemeSlot.scheme s) scheme_id =
        .error e) ∧
    (∀ n, intCoerce id = .ok n →
      Group.new id name = .ok ⟨n, name⟩ ∧
      UserPartition.new reg st id name description groups (SchemeSlot.scheme s) scheme_id =
        .ok (⟨n, name, description, groups, SchemeSlot.scheme s⟩, st)) := by
  constructor
  · intro e he
    constructor
    · rw [Group.new, he]
      rfl
    · rw [UserPartition.new]
      simp only [SchemeSlot.truthy, Scheme.truthy, if_pos]
      rw [show (pure (SchemeSlot.scheme s, st) :
            Except PyError (SchemeSlot × SchemeState)) = .ok (SchemeSlot.scheme s, st) from rfl]
      show (Except.ok (SchemeSlot.scheme s, st)).bind _ = _
      rw [Except.bind]
      show (intCoerce id).bind _ = _
      rw [he]
      rfl
  · intro n hn
    constructor
    · rw [Group.new, hn]
      rfl
    · rw [UserPartition.new]
      simp only [SchemeSlot.truthy, Scheme.truthy, if_pos]
      rw [show (pure (SchemeSlot.scheme s, st) :
            Except PyError (SchemeSlot × SchemeState)) = .ok (SchemeSlot.scheme s, st) from rfl]
      show (Except.ok (SchemeSlot.scheme s, st)).bind _ = _
      rw [Except.bind]
      show (intCoerce id).bind _ = _
      rw [hn]
      rfl

/-- C7 witness: `id = None` is rejected with the coercion error, and
`id = "3"` (a coercible value) is stored as the integer 3. -/
theorem construction_coerces_id_witness :
    (Group.new .noneV (.str "A") =
      .error ⟨"int() argument must be a string or a number, not \x27NoneType\x27"⟩) ∧
    Group.new (.str "3") (.str "A") = .ok ⟨3, .str "A"⟩ :=
  ⟨((construction_coerces_id [] ⟨[]⟩ .noneV (.str "A") (.str "d") [] ⟨Option.none⟩
      (.str "random")).1
      ⟨"int() argument must be a string or a number, not \x27NoneType\x27"⟩ rfl).1,
   ((construction_coerces_id [] ⟨[]⟩ (.str "3") (.str "A") (.str "d") [] ⟨Option.none⟩
      (.str "random")).2 3 (by rfl)).1⟩

/-- C10: in the UserPartition constructor, any falsy `scheme` argument (not
only `None`) triggers resolution of `scheme_id` through the registry, and a
truthy argument is stored as given. -/
theorem userPartition_new_falsy_scheme (reg : List Extension) (st : SchemeState)
    (id name description : PyVal) (groups : List Group)
    (schemeArg : SchemeSlot) (scheme_id : PyVal) :
    (SchemeSlot.truthy schemeArg = false →
      UserPartition.new reg st id name description groups schemeArg scheme_id =
        (UserPartition.get_scheme reg st scheme_id).bind (fun r =>
          (intCoerce id).map (fun n =>
            (⟨n, name, description, groups, SchemeSlot.scheme r.1⟩, r.2)))) ∧
    (SchemeSlot.truthy schemeArg = true →
      UserPartition.new reg st id name description groups schemeArg scheme_id =
        (intCoerce id).map (fun n => (⟨n, name, description, groups, schemeArg⟩, st))) := by
  constructor
  · intro h
    rw [UserPartition.new]
    rw [if_neg (by rw [h]; intro hc; cases hc)]
    cases hres : UserPartition.get_scheme reg st scheme_id with
    | error e => rfl
    | ok r =>
      obtain ⟨s2, st2⟩ := r
      cases hic : intCoerce id with
      | error e => rfl
      | ok n => rfl
  · intro h
    rw [UserPartition.new]
    rw [if_pos (by rw [h])]
    cases hic : intCoerce id with
    | error e => rfl
    | ok n => rfl

/-- C10 witness: the falsy non-None scheme argument `0` is treated as not
supplied, so the stored scheme is resolved from the registry by `scheme_id`
(`"random"` here), and a truthy scheme argument is stored as given. -/
theorem userPartition_new_falsy_scheme_witness :
    UserPartition.new [⟨"random"⟩] ⟨[]⟩ (.int 5) (.str "P") (.str "d") []
        (.raw (.int 0)) (.str "random") =
      (UserPartition.get_scheme [⟨"random"⟩] ⟨[]⟩ (.str "random")).bind (fun r =>
        (intCoerce (.int 5)).map (fun n =>
          (⟨n, .str "P", .str "d", [], SchemeSlot.scheme r.1⟩, r.2))) :=
  (userPartition_new_falsy_scheme [⟨"random"⟩] ⟨[]⟩ (.int 5) (.str "P") (.str "d") []
    (.raw (.int 0)) (.str "random")).1 rfl

/-- Shared helper: `Group.from_json` on a dict stopping at a missing key. -/
theorem group_from_json_missing_red (d : List (String × PyVal)) (k : String)
    (h : firstMissing d ["id", "name", "version"] = some k) :
    Group.from_json (.val (.dict d)) =
      .error ⟨"Group dict " ++ pyRepr (.dict d) ++ " missing value key \x27" ++ k ++ "\x27"⟩ := by
  simp only [Group.from_json]
  rw [h]

/-- Shared helper: `UserPartition.from_json` on a dict stopping at a missing
key. -/
theorem up_from_json_missing_red (reg : List Extension) (st : SchemeState)
    (d : List (String × PyVal)) (k : String)
    (h : firstMissing d ["id", "name", "description", "version", "groups"] = some k) :
    UserPartition.from_json reg st (.val (.dict d)) =
      .error ⟨"UserPartition dict " ++ pyRepr (.dict d) ++ " missing value key \x27" ++ k ++ "\x27"⟩ := by
  simp only [UserPartition.from_json]
  rw [h]

/-- C4: a mapping input missing a required key ("id", "name", "version" for
`Group.from_json`; "id", "name", "description", "version", "groups" for
`UserPartition.from_json`) is rejected with a type error whose message names
the (first) missing key and embeds the repr of the offending value. -/
theorem from_json_missing_key_error (reg : List Extension) (st : SchemeState)
    (d : List (String × PyVal)) :
    (∀ k, k ∈ ["id", "name", "version"] → hasKey d k = false →
      ∃ k2, k2 ∈ ["id", "name", "version"] ∧ hasKey d k2 = false ∧
        Group.from_json (.val (.dict d)) =
          .error ⟨"Group dict " ++ pyRepr (.dict d) ++
            " missing value key \x27" ++ k2 ++ "\x27"⟩) ∧
    (∀ k, k ∈ ["id", "name", "description", "version", "groups"] → hasKey d k = false →
      ∃ k2, k2 ∈ ["id", "name", "description", "version", "groups"] ∧ hasKey d k2 = false ∧
        UserPartition.from_json reg st (.val (.dict d)) =
          .error ⟨"UserPartition dict " ++ pyRepr (.dict d) ++
            " missing value key \x27" ++ k2 ++ "\x27"⟩) := by
  constructor
  · intro k hk hmiss
    obtain ⟨k2, h1, h2, h3⟩ := firstMissing_of_missing d _ k hk hmiss
    exact ⟨k2, h2, h3, group_from_json_missing_red d k2 h1⟩
  · intro k hk hmiss
    obtain ⟨k2, h1, h2, h3⟩ := firstMissing_of_missing d _ k hk hmiss
    exact ⟨k2, h2, h3, up_from_json_missing_red reg st d k2 h1⟩

/-- C4 witness: `{"id": 1, "name": "A"}` has no "version" key, and
`Group.from_json` rejects it with an error naming a missing key (here
"version") and echoing the dict. -/
theorem from_json_missing_key_error_witness :
    ∃ k2, k2 ∈ ["id", "name", "version"] ∧
      hasKey [("id", PyVal.int 1), ("name", PyVal.str "A")] k2 = false ∧
      Group.from_json (.val (.dict [("id", .int 1), ("name", .str "A")])) =
        .error ⟨"Group dict " ++ pyRepr (.dict [("id", .int 1), ("name", .str "A")]) ++
          " missing value key \x27" ++ k2 ++ "\x27"⟩ :=
  (from_json_missing_key_error [] ⟨[]⟩ [("id", .int 1), ("name", .str "A")]).1
    "version" (by simp) rfl

/-- C5: a mapping input with all required keys but an unsupported version
(anything Python-unequal to 1 for `Group.from_json`; to 1 and to 2 for
`UserPartition.from_json`) is rejected with the unexpected-version type
error. -/
theorem from_json_unexpected_version_error (reg : List Extension) (st : SchemeState)
    (d : List (String × PyVal)) :
    (firstMissing d ["id", "name", "version"] = Option.none →
      pyEqInt (dGetD d "version") Group.VERSION = false →
      Group.from_json (.val (.dict d)) =
        .error ⟨"Group dict " ++ pyRepr (.dict d) ++ " has unexpected version"⟩) ∧
    (firstMissing d ["id", "name", "description", "version", "groups"] = Option.none →
      pyEqInt (dGetD d "version") 1 = false →
      pyEqInt (dGetD d "version") UserPartition.VERSION = false →
      UserPartition.from_json reg st (.val (.dict d)) =
        .error ⟨"UserPartition dict " ++ pyRepr (.dict d) ++ " has unexpected version"⟩) := by
  constructor
  · intro hkeys hver
    simp only [Group.from_json]
    rw [hkeys]
    simp only [hver]
    rfl
  · intro hkeys hv1 hv2
    simp only [UserPartition.from_json]
    rw [hkeys]
    simp only [hv1, hv2]
    rfl

/-- C5 witness: `{"id": 1, "name": "A", "version": 2}` is rejected by
`Group.from_json` as an unexpected version. -/
theorem from_json_unexpected_version_error_witness :
    Group.from_json (.val (.dict [("id", .int 1), ("name", .str "A"), ("version", .int 2)])) =
      .error ⟨"Group dict " ++
        pyRepr (.dict [("id", .int 1), ("name", .str "A"), ("version", .int 2)]) ++
        " has unexpected version"⟩ :=
  (from_json_unexpected_version_error [] ⟨[]⟩
    [("id", .int 1), ("name", .str "A"), ("version", .int 2)]).1 rfl rfl

/-- Shared helper: version-1 reduction of `UserPartition.from_json`. -/
theorem up_from_json_v1_red (reg : List Extension) (st : SchemeState)
    (d : List (String × PyVal))
    (hkeys : firstMissing d ["id", "name", "description", "version", "groups"] = Option.none)
    (hv1 : pyEqInt (dGetD d "version") 1 = true) :
    UserPartition.from_json reg st (.val (.dict d)) =
      fromJsonTail reg st d (.str UserPartition.VERSION_1_SCHEME) := by
  simp only [UserPartition.from_json]
  rw [hkeys]
  simp only [hv1]
  rfl

/-- Shared helper: version-2 reduction of `UserPartition.from_json` when the
`scheme` key is present. -/
theorem up_from_json_v2_red (reg : List Extension) (st : SchemeState)
    (d : List (String × PyVal))
    (hkeys : firstMissing d ["id", "name", "description", "version", "groups"] = Option.none)
    (hv2 : pyEqInt (dGetD d "version") UserPartition.VERSION = true)
    (hsch : hasKey d "scheme" = true) :
    UserPartition.from_json reg st (.val (.dict d)) =
      fromJsonTail reg st d (dGetD d "scheme") := by
  have hv1 : pyEqInt (dGetD d "version") 1 = false := by
    rw [pyEqInt_eq_int _ _ hv2]
    rfl
  simp only [UserPartition.from_json]
  rw [hkeys]
  simp only [hv1, hv2, hsch]
  rfl

/-- C2: `UserPartition.from_json` dispatches on the `version` value of a
key-complete dict: version 1 proceeds with the fixed default scheme id
`"random"` and never consults a `scheme` key; version 2 requires a `scheme`
key (missing-key type error naming "scheme" otherwise) and proceeds with its
value as the scheme id; any other version is an unexpected-version type
error. -/
theorem userPartition_from_json_version_dispatch (reg : List Extension) (st : SchemeState)
    (d : List (String × PyVal))
    (hkeys : firstMissing d ["id", "name", "description", "version", "groups"] = Option.none) :
    (pyEqInt (dGetD d "version") 1 = true →
      UserPartition.from_json reg st (.val (.dict d)) =
        fromJsonTail reg st d (.str UserPartition.VERSION_1_SCHEME)) ∧
    (pyEqInt (dGetD d "version") UserPartition.VERSION = true → hasKey d "scheme" = false →
      UserPartition.from_json reg st (.val (.dict d)) =
        .error ⟨"UserPartition dict " ++ pyRepr (.dict d) ++
          " missing value key \x27scheme\x27"⟩) ∧
    (pyEqInt (dGetD d "version") UserPartition.VERSION = true → hasKey d "scheme" = true →
      UserPartition.from_json reg st (.val (.dict d)) =
        fromJsonTail reg st d (dGetD d "scheme")) ∧
    (pyEqInt (dGetD d "version") 1 = false →
      pyEqInt (dGetD d "version") UserPartition.VERSION = false →
      UserPartition.from_json reg st (.val (.dict d)) =
        .error ⟨"UserPartition dict " ++ pyRepr (.dict d) ++ " has unexpected version"⟩) := by
  refine ⟨?_, ?_, ?_, ?_⟩
  · intro hv1
    exact up_from_json_v1_red reg st d hkeys hv1
  · intro hv2 hsch
    have hv1 : pyEqInt (dGetD d "version") 1 = false := by
      rw [pyEqInt_eq_int _ _ hv2]
      rfl
    simp only [UserPartition.from_json]
    rw [hkeys]
    simp only [hv1, hv2, hsch]
    rfl
  · intro hv2 hsch
    exact up_from_json_v2_red reg st d hkeys hv2 hsch
  · intro hv1 hv2
    simp only [UserPartition.from_json]
    rw [hkeys]
    simp only [hv1, hv2]
    rfl

/-- C2 witness: on a key-complete version-1 dict, `from_json` proceeds with
the default scheme id "random"; the dict has no "scheme" key at all. -/
theorem userPartition_from_json_version_dispatch_witness :
    UserPartition.from_json [⟨"random"⟩] ⟨[]⟩
        (.val (.dict [("id", .int 1), ("name", .str "P"), ("description", .str "d"),
          ("version", .int 1), ("groups", .list [])])) =
      fromJsonTail [⟨"random"⟩] ⟨[]⟩
        [("id", .int 1), ("name", .str "P"), ("description", .str "d"),
          ("version", .int 1), ("groups", .list [])]
        (.str UserPartition.VERSION_1_SCHEME) :=
  (userPartition_from_json_version_dispatch [⟨"random"⟩] ⟨[]⟩
    [("id", .int 1), ("name", .str "P"), ("description", .str "d"),
      ("version", .int 1), ("groups", .list [])] rfl).1 rfl

/-- Shared helper: the deserialization tail surfaces a scheme-resolution
error once the groups decoded. -/
theorem fromJsonTail_scheme_error (reg : List Extension) (st : SchemeState)
    (d : List (String × PyVal)) (sid : PyVal) (gs : List Group) (e : PyError)
    (hdec : decodeGroups (dGetD d "groups") = .ok gs)
    (hsch : UserPartition.get_scheme reg st sid = .error e) :
    fromJsonTail reg st d sid = .error e := by
  simp only [fromJsonTail]
  rw [hdec]
  show (Except.ok gs).bind _ = _
  rw [Except.bind]
  show (UserPartition.get_scheme reg st sid).bind _ = _
  rw [hsch]
  rfl

/-- Shared helper: the deserialization tail on decoded groups and a resolved
scheme reduces to the final constructor call. -/
theorem fromJsonTail_ok (reg : List Extension) (st : SchemeState)
    (d : List (String × PyVal)) (sid : PyVal) (gs : List Group)
    (s : Scheme) (st2 : SchemeState)
    (hdec : decodeGroups (dGetD d "groups") = .ok gs)
    (hsch : UserPartition.get_scheme reg st sid = .ok (s, st2)) :
    fromJsonTail reg st d sid =
      UserPartition.new reg st2 (dGetD d "id") (dGetD d "name") (dGetD d "description")
        gs (SchemeSlot.scheme s) (.str UserPartition.VERSION_1_SCHEME) := by
  simp only [fromJsonTail]
  rw [hdec]
  show (Except.ok gs).bind _ = _
  rw [Except.bind]
  show (UserPartition.get_scheme reg st sid).bind _ = _
  rw [hsch]
  rfl

/-- C6: a scheme name with no extension in the plugin registry (and, per the
spec's own lookup order, no cached instance) makes `get_scheme` fail with the
"Unrecognized scheme" type error; consequently a version-2 input naming such
a scheme (with decodable groups, so deserialization reaches scheme
resolution) makes `from_json` fail with that same error. -/
theorem get_scheme_unrecognized (reg : List Extension) (st : SchemeState) (name : PyVal)
    (hc : cacheLookup st name = Option.none)
    (hr : lookupExt reg name = Option.none) :
    UserPartition.get_scheme reg st name =
      .error ⟨"Unrecognized scheme " ++ pyStr name⟩ ∧
    (∀ d gs,
      firstMissing d ["id", "name", "description", "version", "groups"] = Option.none →
      pyEqInt (dGetD d "version") UserPartition.VERSION = true →
      hasKey d "scheme" = true →
      dGetD d "scheme" = name →
      decodeGroups (dGetD d "groups") = .ok gs →
      UserPartition.from_json reg st (.val (.dict d)) =
        .error ⟨"Unrecognized scheme " ++ pyStr name⟩) := by
  have hGet : UserPartition.get_scheme reg st name =
      .error ⟨"Unrecognized scheme " ++ pyStr name⟩ := by
    rw [UserPartition.get_scheme, hc]
    rw [resolveScheme, hr]
  refine ⟨hGet, ?_⟩
  intro d gs hkeys hv2 hsch hname hdec
  rw [up_from_json_v2_red reg st d hkeys hv2 hsch, hname]
  exact fromJsonTail_scheme_error reg st d name gs _ hdec hGet

/-- C6 witness: with an empty registry and cache, deserializing a version-2
partition naming the scheme "nosuch" fails with the unrecognized-scheme
error. -/
theorem get_scheme_unrecognized_witness :
    UserPartition.from_json [] ⟨[]⟩
        (.val (.dict [("id", .int 1), ("name", .str "P"), ("description", .str "d"),
          ("version", .int 2), ("scheme", .str "nosuch"), ("groups", .list [])])) =
      .error ⟨"Unrecognized scheme " ++ pyStr (.str "nosuch")⟩ :=
  (get_scheme_unrecognized [] ⟨[]⟩ (.str "nosuch") rfl rfl).2
    [("id", .int 1), ("name", .str "P"), ("description", .str "d"),
      ("version", .int 2), ("scheme", .str "nosuch"), ("groups", .list [])]
    [] rfl rfl rfl rfl rfl

/-- Shared helper: the guard in the deserialization tail never changes the
result, since schemes are truthy. -/
theorem fromJsonTail_eq_noGuard (reg : List Extension) (st : SchemeState)
    (d : List (String × PyVal)) (sid : PyVal) :
    fromJsonTail reg st d sid = fromJsonTailNoGuard reg st d sid := by
  simp only [fromJsonTail, fromJsonTailNoGuard]
  cases hdec : decodeGroups (dGetD d "groups") with
  | error e => rfl
  | ok gs =>
    cases hsch : UserPartition.get_scheme reg st sid with
    | error e => rfl
    | ok r =>
      obtain ⟨s, st2⟩ := r
      rfl

/-- C9: the `if not scheme: raise ...("has unrecognized scheme")` guard after
the `get_scheme` call in `UserPartition.from_json` is unreachable: whenever
`get_scheme` returns (rather than raising), the returned scheme instance is
truthy, so `from_json` behaves identically to its guard-free variant on every
input. -/
theorem up_from_json_guard_unreachable (reg : List Extension) (st : SchemeState) :
    (∀ name s st2, UserPartition.get_scheme reg st name = .ok (s, st2) →
      Scheme.truthy s = true) ∧
    (∀ v, UserPartition.from_json reg st v = UserPartition.from_jsonNoGuard reg st v) := by
  constructor
  · intro name s st2 _
    rfl
  · intro v
    cases v with
    | inst p => rfl
    | val w =>
      cases w with
      | dict d =>
        simp only [UserPartition.from_json, UserPartition.from_jsonNoGuard]
        cases hk : firstMissing d ["id", "name", "description", "version", "groups"] with
        | some k => rfl
        | none => simp only [fromJsonTail_eq_noGuard]
      | int n => rfl
      | str s => rfl
      | noneV => rfl
      | list xs => rfl

/-- C9 witness: the scheme resolved for "random" from a one-extension
registry is truthy, as the guard requires. -/
theorem up_from_json_guard_unreachable_witness :
    Scheme.truthy ⟨some ⟨"random"⟩⟩ = true :=
  (up_from_json_guard_unreachable [⟨"random"⟩] ⟨[]⟩).1 (.str "random")
    ⟨some ⟨"random"⟩⟩ ⟨[(.str "random", ⟨some ⟨"random"⟩⟩)]⟩ rfl

/-- C1: serializing a UserPartition whose scheme has a registry-resolvable
name and deserializing the result restores the partition: same id, name,
description and groups (in order), with the scheme the registry resolves for
that same name. -/
theorem userPartition_to_from_roundtrip (reg : List Extension) (st : SchemeState)
    (p : UserPartition) (s s2 : Scheme) (n : String) (st2 : SchemeState)
    (hslot : p.scheme = SchemeSlot.scheme s)
    (hname : Scheme.name s = some n)
    (hres : UserPartition.get_scheme reg st (.str n) = .ok (s2, st2)) :
    ∃ j, UserPartition.to_json p = .ok j ∧
      UserPartition.from_json reg st (.val j) =
        .ok (⟨p.id, p.name, p.description, p.groups, SchemeSlot.scheme s2⟩, st2) := by
  refine ⟨.dict [("id", .int p.id), ("name", p.name), ("scheme", .str n),
    ("description", p.description), ("groups", .list (p.groups.map Group.to_json)),
    ("version", .int UserPartition.VERSION)], ?_, ?_⟩
  · simp only [UserPartition.to_json, hslot, SchemeSlot.nameAttr, hname]
    rfl
  · have hdec : decodeGroups (dGetD [("id", PyVal.int p.id), ("name", p.name),
        ("scheme", PyVal.str n), ("description", p.description),
        ("groups", PyVal.list (p.groups.map Group.to_json)),
        ("version", PyVal.int UserPartition.VERSION)] "groups") = .ok p.groups := by
      show decodeGroups (.list (p.groups.map Group.to_json)) = .ok p.groups
      exact decode_groups_aux p.groups
    rw [up_from_json_v2_red reg st [("id", PyVal.int p.id), ("name", p.name),
      ("scheme", PyVal.str n), ("description", p.description),
      ("groups", PyVal.list (p.groups.map Group.to_json)),
      ("version", PyVal.int UserPartition.VERSION)] (by rfl) (by rfl) (by rfl)]
    rw [show dGetD [("id", PyVal.int p.id), ("name", p.name), ("scheme", PyVal.str n),
      ("description", p.description), ("groups", PyVal.list (p.groups.map Group.to_json)),
      ("version", PyVal.int UserPartition.VERSION)] "scheme" = PyVal.str n from rfl]
    rw [fromJsonTail_ok reg st _ (.str n) p.groups s2 st2 hdec hres]
    rfl

/-- C1 witness: a concrete partition with scheme name "random" and one group
round-trips through `to_json`/`from_json`, the scheme being re-resolved from
the registry by name. -/
theorem userPartition_to_from_roundtrip_witness :
    ∃ j,
      UserPartition.to_json
        ⟨7, .str "P", .str "desc", [⟨1, .str "A"⟩], SchemeSlot.scheme ⟨some ⟨"random"⟩⟩⟩ =
        .ok j ∧
      UserPartition.from_json [⟨"random"⟩] ⟨[]⟩ (.val j) =
        .ok (⟨7, .str "P", .str "desc", [⟨1, .str "A"⟩],
          SchemeSlot.scheme ⟨some ⟨"random"⟩⟩⟩,
          ⟨[(.str "random", ⟨some ⟨"random"⟩⟩)]⟩) :=
  userPartition_to_from_roundtrip [⟨"random"⟩] ⟨[]⟩
    ⟨7, .str "P", .str "desc", [⟨1, .str "A"⟩], SchemeSlot.scheme ⟨some ⟨"random"⟩⟩⟩
    ⟨some ⟨"random"⟩⟩ ⟨some ⟨"random"⟩⟩ "random" ⟨[(.str "random", ⟨some ⟨"random"⟩⟩)]⟩
    rfl rfl rfl

end Partitions
